import Mathlib

/-!
Shallow embedding of `src/lib/libteam.c` (the libteam network team device
library core): transport error translation, log priority parsing, port and
option list decoding, change handler registration and dispatch, and context
init and destroy. Pure functions of the C source are translated to Lean
functions; the mutable `struct team_handle` becomes an explicit `TeamState`
value threaded through the operations.
-/

namespace Libteam

/-- POSIX errno values (Linux asm-generic/errno.h), as used by libteam.c. -/
def EPERM : Int := 1

def ENOENT : Int := 2

def EINTR : Int := 4

def EAGAIN : Int := 11

def ENOMEM : Int := 12

def EACCES : Int := 13

def EBUSY : Int := 16

def EEXIST : Int := 17

def ENODEV : Int := 19

def EINVAL : Int := 22

def ERANGE : Int := 34

def ENOTSOCK : Int := 88

def EPROTONOSUPPORT : Int := 93

def EOPNOTSUPP : Int := 95

def EAFNOSUPPORT : Int := 97

def EADDRNOTAVAIL : Int := 99

/-- libnl transport error identifiers (netlink/errno.h, external to this
repository). Only pairwise distinctness of these codes matters to the
translation function; the values follow the libnl headers. -/
def NLE_INTR : Nat := 2

def NLE_BAD_SOCK : Nat := 3

def NLE_AGAIN : Nat := 4

def NLE_NOMEM : Nat := 5

def NLE_EXIST : Nat := 6

def NLE_INVAL : Nat := 7

def NLE_RANGE : Nat := 8

def NLE_OPNOTSUPP : Nat := 10

def NLE_AF_NOSUPPORT : Nat := 11

def NLE_OBJ_NOTFOUND : Nat := 12

def NLE_NOADDR : Nat := 19

def NLE_BUSY : Nat := 25

def NLE_PROTO_MISMATCH : Nat := 26

def NLE_NOACCESS : Nat := 27

def NLE_PERM : Nat := 28

def NLE_NODEV : Nat := 31

/-- Embedding of `nl2syserr` (libteam.c lines 135-157): a switch on
`abs(nl_error)` translating libnl error codes to POSIX errno values;
unrecognized codes fall to the `default:` arm returning `EINVAL`. -/
def nl2syserr (nl_error : Int) : Int :=
  let a := nl_error.natAbs
  if a = 0 then 0
  else if a = NLE_EXIST then EEXIST
  else if a = NLE_NOADDR then EADDRNOTAVAIL
  else if a = NLE_OBJ_NOTFOUND then ENOENT
  else if a = NLE_INTR then EINTR
  else if a = NLE_AGAIN then EAGAIN
  else if a = NLE_BAD_SOCK then ENOTSOCK
  else if a = NLE_NOACCESS then EACCES
  else if a = NLE_INVAL then EINVAL
  else if a = NLE_NOMEM then ENOMEM
  else if a = NLE_AF_NOSUPPORT then EAFNOSUPPORT
  else if a = NLE_PROTO_MISMATCH then EPROTONOSUPPORT
  else if a = NLE_OPNOTSUPP then EOPNOTSUPP
  else if a = NLE_PERM then EPERM
  else if a = NLE_BUSY then EBUSY
  else if a = NLE_RANGE then ERANGE
  else if a = NLE_NODEV then ENODEV
  else EINVAL

/-- The sixteen transport error identifiers named in the `nl2syserr` switch. -/
def nle_defined_codes : List Nat :=
  [NLE_EXIST, NLE_NOADDR, NLE_OBJ_NOTFOUND, NLE_INTR, NLE_AGAIN, NLE_BAD_SOCK,
   NLE_NOACCESS, NLE_INVAL, NLE_NOMEM, NLE_AF_NOSUPPORT, NLE_PROTO_MISMATCH,
   NLE_OPNOTSUPP, NLE_PERM, NLE_BUSY, NLE_RANGE, NLE_NODEV]

/-! ## Change category masks

Modelled from the spec: the numeric values of `TEAM_PORT_CHANGE`,
`TEAM_OPTION_CHANGE` and `TEAM_ANY_CHANGE` live in `team.h`, which is not
part of `src/`; the spec describes a bitmask of the two categories, so the
two categories get distinct single bits and `TEAM_ANY_CHANGE` their union. -/

def TEAM_PORT_CHANGE : Nat := 1

def TEAM_OPTION_CHANGE : Nat := 2

def TEAM_ANY_CHANGE : Nat := TEAM_PORT_CHANGE ||| TEAM_OPTION_CHANGE

/-- Embedding of `struct team_port` (libteam.c lines 321-328), minus the
intrusive list node. -/
structure team_port where
  ifindex : Nat
  speed : Nat
  duplex : Nat
  linkup : Bool
  changed : Bool
  deriving Repr, DecidableEq

/-- netlink attribute type tags (libnl netlink/attr.h, external headers). -/
def NLA_U32 : Nat := 3

def NLA_STRING : Nat := 5

/-- `enum team_option_type` values. Modelled from the spec: `team.h` is not
under `src/`; the spec enumerates the type tags as 32-bit-unsigned = 1,
string = 2. -/
def TEAM_OPTION_TYPE_U32 : Nat := 1

def TEAM_OPTION_TYPE_STRING : Nat := 2

/-- Typed payload of an option, replacing the C `void *data` whose
interpretation depends on the type tag. -/
inductive OptionData where
  | u32 (v : Nat)
  | str (s : List Char)
  deriving Repr, DecidableEq

/-- Embedding of `struct team_option` (libteam.c lines 517-523), minus the
intrusive list node. -/
structure team_option where
  type : Nat
  name : List Char
  data : OptionData
  changed : Bool
  deriving Repr, DecidableEq

/-- Embedding of `create_option` (libteam.c lines 537-569), allocation
failure aside: builds the option record from its parts. -/
def create_option (name : List Char) (opt_type : Nat) (data : OptionData)
    (changed : Bool) : team_option :=
  { type := opt_type, name := name, data := data, changed := changed }

/-- Embedding of `__find_option` (libteam.c lines 571-581): first option in
the list whose name compares equal. -/
def __find_option (opt_list : List team_option) (name : List Char) :
    Option team_option :=
  opt_list.find? (fun option => option.name = name)

/-- A registered change handler; `id` stands for the identity of the
`struct team_change_handler` object the caller passed in (the C code
compares these by pointer). -/
structure team_change_handler where
  id : Nat
  type_mask : Nat
  deriving Repr, DecidableEq

/-- Embedding of the parts of `struct team_handle` (libteam.c lines 40-60)
the core protocol engine manipulates: the bound device ifindex, the two
registry lists, the registered change handlers and the pending change mask. -/
structure TeamState where
  ifindex : Nat
  port_list : List team_port
  option_list : List team_option
  change_handlers : List team_change_handler
  pending_type_mask : Nat
  deriving Repr, DecidableEq

/-- Embedding of `set_call_change_handlers` (libteam.c lines 232-236). -/
def set_call_change_handlers (th : TeamState) (set_type_mask : Nat) :
    TeamState :=
  { th with pending_type_mask := th.pending_type_mask ||| set_type_mask }

/-! ## Port list decoding -/

/-- One nested port item as produced by `nla_parse_nested`: `parse_ok` is
false when `nla_parse_nested` itself fails; each optional field is the
presence/value of the corresponding `TEAM_ATTR_PORT_*` attribute; `linkup`
and `changed` are flag attributes, so only presence is recorded. -/
structure PortItemAttrs where
  parse_ok : Bool
  ifindex : Option Nat
  speed : Option Nat
  duplex : Option Nat
  linkup : Bool
  changed : Bool
  deriving Repr, DecidableEq

/-- Embedding of the `nla_for_each_nested` loop of `get_port_list_handler`
(libteam.c lines 362-392): builds the temporary port list in item order;
`none` models the `return NL_SKIP` abort taken when `nla_parse_nested` fails
or the mandatory ifindex attribute is missing. The C `memset` zero-fills the
port, so absent speed/duplex decode to 0 and absent flags to false.
The intrusive `list_add`/`list_move_nodes` of `list.h` (not under `src/`)
are modelled from the spec as an insertion-order-preserving sequence. -/
def decodePortItems : List PortItemAttrs → Option (List team_port)
  | [] => some []
  | it :: rest =>
    if it.parse_ok = false then none
    else
      match it.ifindex with
      | none => none
      | some idx =>
        match decodePortItems rest with
        | none => none
        | some ports =>
          some ({ ifindex := idx,
                  speed := it.speed.getD 0,
                  duplex := it.duplex.getD 0,
                  linkup := it.linkup,
                  changed := it.changed } :: ports)

/-- An inbound port-list message after `genlmsg_parse`: presence/value of the
top-level `TEAM_ATTR_TEAM_IFINDEX` attribute and of `TEAM_ATTR_LIST_PORT`. -/
structure PortListMsg where
  team_ifindex : Option Nat
  port_list : Option (List PortItemAttrs)
  deriving Repr, DecidableEq

/-- Embedding of `get_port_list_handler` (libteam.c lines 340-399). Every
path of the C function returns `NL_SKIP`; the state's evolution is the
observable effect. A missing top-level ifindex leaves `team_ifindex` at its
initialization value 0; a mismatch with the bound ifindex, a missing port
list attribute, or an aborted item decode leaves the state untouched;
otherwise the old port list is flushed, the fresh list moved in, and the
port change bit set pending. -/
def get_port_list_handler (msg : PortListMsg) (th : TeamState) : TeamState :=
  let team_ifindex := msg.team_ifindex.getD 0
  if team_ifindex ≠ th.ifindex then th
  else
    match msg.port_list with
    | none => th
    | some items =>
      match decodePortItems items with
      | none => th
      | some ports =>
        set_call_change_handlers { th with port_list := ports }
          TEAM_PORT_CHANGE

/-! ## Option list decoding -/

/-- One nested option item as produced by `nla_parse_nested`. The raw
`TEAM_ATTR_OPTION_DATA` payload can be read either as a u32 or as a string
depending on the type tag, so its presence carries both readings. -/
structure OptionItemAttrs where
  parse_ok : Bool
  name : Option (List Char)
  nla_type : Option Nat
  data : Option (Nat × List Char)
  changed : Bool
  deriving Repr, DecidableEq

/-- Decoding of a single option item in isolation (the loop body of
`get_options_handler` without the duplicate check): `none` when the item is
skipped for an unrecognized type tag; attribute-missing items abort the whole
loop and are never reached by this function under a completed decode. -/
def decode_option_item (it : OptionItemAttrs) : Option team_option :=
  if it.parse_ok = false then none
  else
    match it.name, it.nla_type, it.data with
    | some name, some nla_type, some data =>
      if nla_type = NLA_U32 then
        some (create_option name TEAM_OPTION_TYPE_U32 (.u32 data.1) it.changed)
      else if nla_type = NLA_STRING then
        some (create_option name TEAM_OPTION_TYPE_STRING (.str data.2)
          it.changed)
      else none
    | _, _, _ => none

/-- Embedding of the `nla_for_each_nested` loop of `get_options_handler`
(libteam.c lines 605-659), with `acc` the temporary list built so far:
a failed `nla_parse_nested` or a missing name/type/data attribute is
`return NL_SKIP` (abort, `none`); a name already present in the temporary
list, or an unknown type tag, is `continue` (that one item dropped);
otherwise the created option is appended. -/
def decodeOptionItems : List OptionItemAttrs → List team_option →
    Option (List team_option)
  | [], acc => some acc
  | it :: rest, acc =>
    if it.parse_ok = false then none
    else
      match it.name, it.nla_type, it.data with
      | some name, some nla_type, some data =>
        if (__find_option acc name).isSome then decodeOptionItems rest acc
        else if nla_type = NLA_U32 then
          decodeOptionItems rest
            (acc ++ [create_option name TEAM_OPTION_TYPE_U32 (.u32 data.1)
              it.changed])
        else if nla_type = NLA_STRING then
          decodeOptionItems rest
            (acc ++ [create_option name TEAM_OPTION_TYPE_STRING
              (.str data.2) it.changed])
        else decodeOptionItems rest acc
      | _, _, _ => none

/-- An inbound option-list message after `genlmsg_parse`. -/
structure OptionListMsg where
  team_ifindex : Option Nat
  option_list : Option (List OptionItemAttrs)
  deriving Repr, DecidableEq

/-- Embedding of `get_options_handler` (libteam.c lines 583-666), the exact
analogue of `get_port_list_handler` for the option registry. -/
def get_options_handler (msg : OptionListMsg) (th : TeamState) : TeamState :=
  let team_ifindex := msg.team_ifindex.getD 0
  if team_ifindex ≠ th.ifindex then th
  else
    match msg.option_list with
    | none => th
    | some items =>
      match decodeOptionItems items [] with
      | none => th
      | some options =>
        set_call_change_handlers { th with option_list := options }
          TEAM_OPTION_CHANGE

/-! ## Change handler dispatch and registration -/

/-- Embedding of the `list_for_each_node_entry` loop of
`check_call_change_handlers` (libteam.c lines 245-253): walks the handler
list with the precomputed `to_call_type_mask` and records, in traversal
order, each invocation as the pair of the handler's identity and the mask it
is passed; a handler whose intersection is zero is not invoked. Traversal
order over the `list.h` intrusive list (not under `src/`) is modelled from
the spec as insertion order. -/
def run_change_handlers (handlers : List team_change_handler)
    (to_call_type_mask : Nat) : List (Nat × Nat) :=
  match handlers with
  | [] => []
  | h :: rest =>
    let item_type_mask := h.type_mask &&& to_call_type_mask
    if item_type_mask ≠ 0 then
      (h.id, item_type_mask) :: run_change_handlers rest to_call_type_mask
    else run_change_handlers rest to_call_type_mask

/-- Pending mask update of `check_call_change_handlers` (libteam.c line 254):
`pending &= ~call_type_mask`, written on `Nat` as removing the common bits. -/
def maskClear (pending call_type_mask : Nat) : Nat :=
  pending ^^^ (pending &&& call_type_mask)

/-- Embedding of `check_call_change_handlers` (libteam.c lines 238-255):
returns the invocation trace together with the state whose pending mask has
the settled bits cleared. -/
def check_call_change_handlers (th : TeamState) (call_type_mask : Nat) :
    TeamState × List (Nat × Nat) :=
  let to_call_type_mask := th.pending_type_mask &&& call_type_mask
  let calls := run_change_handlers th.change_handlers to_call_type_mask
  ({ th with
      pending_type_mask := maskClear th.pending_type_mask call_type_mask },
   calls)

/-- Embedding of `find_change_handler` (libteam.c lines 257-267): first
registered record whose handler identity matches. -/
def find_change_handler (th : TeamState) (handler : team_change_handler) :
    Option team_change_handler :=
  th.change_handlers.find? (fun item => item.id = handler.id)

/-- Embedding of `team_change_handler_register` (libteam.c lines 279-293),
allocation failure aside: an already-present handler identity fails with
`-EEXIST`; otherwise the record is added (appended; the `list.h` insertion
order is modelled from the spec as insertion-order preserving). -/
def team_change_handler_register (th : TeamState)
    (handler : team_change_handler) : TeamState × Int :=
  if (find_change_handler th handler).isSome then (th, -EEXIST)
  else
    ({ th with change_handlers := th.change_handlers ++ [handler] }, 0)

/-- Embedding of `team_change_handler_unregister` (libteam.c lines 303-314):
removes the first record with the handler's identity, or does nothing when
none is found. -/
def team_change_handler_unregister (th : TeamState)
    (handler : team_change_handler) : TeamState :=
  { th with
    change_handlers :=
      th.change_handlers.eraseP (fun item => item.id = handler.id) }

/-! ## Log priority parsing -/

/-- syslog priority levels used by libteam.c. -/
def LOG_ERR : Int := 3

def LOG_INFO : Int := 6

def LOG_DEBUG : Int := 7

/-- C `isspace` in the POSIX locale. -/
def c_isspace (c : Char) : Bool :=
  c = ' ' || c = '\t' || c = '\n' ||
  c = Char.ofNat 11 || c = Char.ofNat 12 || c = '\r'

/-- Digit run consumed by `strtol`: accumulated base-10 value and the
remaining characters after the last digit. -/
def parseDigits : List Char → Nat → Nat × List Char
  | [], acc => (acc, [])
  | c :: rest, acc =>
    if c.isDigit then parseDigits rest (acc * 10 + (c.toNat - 48))
    else (acc, c :: rest)

/-- The optional sign `strtol` consumes after the leading whitespace:
the sign flag and the characters after it. -/
def strtolSign : List Char → Bool × List Char
  | '-' :: r => (true, r)
  | '+' :: r => (false, r)
  | t => (false, t)

/-- Embedding of `strtol(s, &endptr, 10)` as used by `log_priority`: skips
leading whitespace, consumes an optional sign and then a digit run; when at
least one digit is consumed the result is the signed value and the rest
after the digits, otherwise the value is 0 and `endptr` is reset to the
whole original string. -/
def strtol10 (s : List Char) : Int × List Char :=
  let signed := strtolSign (s.dropWhile (fun c => c_isspace c))
  match signed.2 with
  | [] => (0, s)
  | c :: _ =>
    if c.isDigit then
      let parsed := parseDigits signed.2 0
      (if signed.1 then -(parsed.1 : Int) else (parsed.1 : Int), parsed.2)
    else (0, s)

/-- Base-10 value of a digit run. -/
def digitsVal (ds : List Char) : Nat :=
  ds.foldl (fun a c => a * 10 + (c.toNat - 48)) 0

/-- Whether the character the parse stopped at is the end of the string or
whitespace (the acceptance test of the priority override's integer arm). -/
def stopAccepted : List Char → Bool
  | [] => true
  | c :: _ => c_isspace c

/-- C `strncmp(s, pat, pat.length) == 0`: the first `pat.length` characters
of `s` equal `pat` (a shorter `s` ends in NUL and cannot match). -/
def strncmpEq : List Char → List Char → Bool
  | _, [] => true
  | [], _ :: _ => false
  | c :: cs, d :: ds => c = d && strncmpEq cs ds

/-- Embedding of `log_priority` (libteam.c lines 113-128): accept the
`strtol` value when it stops at the end of the string or at a whitespace
character; otherwise compare the original text against the three level
tokens with `strncmp` over the token length; otherwise 0. -/
def log_priority (priority : List Char) : Int :=
  let parsed := strtol10 priority
  let stop_ok : Bool :=
    match parsed.2 with
    | [] => true
    | c :: _ => c_isspace c
  if stop_ok then parsed.1
  else if strncmpEq priority ['e', 'r', 'r'] then LOG_ERR
  else if strncmpEq priority ['i', 'n', 'f', 'o'] then LOG_INFO
  else if strncmpEq priority ['d', 'e', 'b', 'u', 'g'] then LOG_DEBUG
  else 0

/-- The initial log priority computed by `team_alloc` (libteam.c lines
969-974): `LOG_ERR` by default, overridden through `log_priority` when the
`TEAM_LOG` environment variable is set. -/
def team_alloc_log_priority (team_log_env : Option (List Char)) : Int :=
  match team_log_env with
  | none => LOG_ERR
  | some env => log_priority env

/-! ## Context init and destroy -/

/-- External netlink actions `team_init` performs, in order, used to show
that an early failure happens before any of them is attempted. -/
inductive InitAction where
  | connectSock
  | connectEventSock
  | resolveFamily
  | resolveGroup
  | addMembership
  | fetchPorts
  | fetchOptions
  deriving Repr, DecidableEq

/-- Results the netlink environment hands to `team_init`: libnl return codes
for the connection steps (0 = success, negative = libnl error), resolver
results (non-negative id or negative libnl error), and the outcomes of the
two initial fetches (either a transport error or a list of inbound messages
fed to the corresponding handler). -/
structure NlEnv where
  genl_connect_sock : Int
  genl_connect_event_sock : Int
  resolve_family : Int
  resolve_grp : Int
  add_membership : Int
  port_fetch : Except Int (List PortListMsg)
  options_fetch : Except Int (List OptionListMsg)

/-- Embedding of `get_port_list` (libteam.c lines 401-424) against the
environment: on transport failure the error is returned; otherwise every
inbound message runs through `get_port_list_handler` and the port change
category is settled. -/
def get_port_list (th : TeamState) (env : NlEnv) :
    Int × TeamState × List (Nat × Nat) :=
  match env.port_fetch with
  | .error e => (e, th, [])
  | .ok msgs =>
    let th := msgs.foldl (fun s m => get_port_list_handler m s) th
    let settled := check_call_change_handlers th TEAM_PORT_CHANGE
    (0, settled.1, settled.2)

/-- Embedding of `get_options` (libteam.c lines 668-691) against the
environment. -/
def get_options (th : TeamState) (env : NlEnv) :
    Int × TeamState × List (Nat × Nat) :=
  match env.options_fetch with
  | .error e => (e, th, [])
  | .ok msgs =>
    let th := msgs.foldl (fun s m => get_options_handler m s) th
    let settled := check_call_change_handlers th TEAM_OPTION_CHANGE
    (0, settled.1, settled.2)

/-- Embedding of `team_init` (libteam.c lines 1117-1183): a zero interface
index fails with `-ENOENT` at once; otherwise the index is bound and the
connection, resolution, membership and fetch steps run in order, each
recorded in the action trace and each failure translated and returned. -/
def team_init (th : TeamState) (ifindex : Nat) (env : NlEnv) :
    Int × TeamState × List InitAction :=
  if ifindex = 0 then (-ENOENT, th, [])
  else
    let th := { th with ifindex := ifindex }
    if env.genl_connect_sock ≠ 0 then
      (-nl2syserr env.genl_connect_sock, th, [.connectSock])
    else if env.genl_connect_event_sock ≠ 0 then
      (-nl2syserr env.genl_connect_event_sock, th,
       [.connectSock, .connectEventSock])
    else if env.resolve_family < 0 then
      (-nl2syserr env.resolve_family, th,
       [.connectSock, .connectEventSock, .resolveFamily])
    else
      let th := th
      if env.resolve_grp < 0 then
        (-nl2syserr env.resolve_grp, th,
         [.connectSock, .connectEventSock, .resolveFamily, .resolveGroup])
      else if env.add_membership < 0 then
        (-nl2syserr env.add_membership, th,
         [.connectSock, .connectEventSock, .resolveFamily, .resolveGroup,
          .addMembership])
      else
        let ports := get_port_list th env
        if ports.1 ≠ 0 then
          (ports.1, ports.2.1,
           [.connectSock, .connectEventSock, .resolveFamily, .resolveGroup,
            .addMembership, .fetchPorts])
        else
          let opts := get_options ports.2.1 env
          if opts.1 ≠ 0 then
            (opts.1, opts.2.1,
             [.connectSock, .connectEventSock, .resolveFamily, .resolveGroup,
              .addMembership, .fetchPorts, .fetchOptions])
          else
            (0, opts.2.1,
             [.connectSock, .connectEventSock, .resolveFamily, .resolveGroup,
              .addMembership, .fetchPorts, .fetchOptions])

/-- Embedding of `team_destroy` (libteam.c lines 1091-1105), allocation
failure aside: an unbound handle (ifindex still 0) fails with `-ENODEV`;
otherwise the link delete result is translated. -/
def team_destroy (th : TeamState) (link_delete_result : Int) : Int :=
  if th.ifindex = 0 then -ENODEV
  else -nl2syserr link_delete_result

/-- Concrete state and messages for the device filtering witness. -/
def thFilterW : TeamState :=
  { ifindex := 7, port_list := [], option_list := [], change_handlers := [],
    pending_type_mask := 0 }

def pmsgFilterW : PortListMsg :=
  ⟨some 9, some [⟨true, some 4, none, none, true, true⟩]⟩

def omsgFilterW : OptionListMsg :=
  ⟨none, some []⟩

/-- A concrete port item carrying only the mandatory ifindex and the linkup
flag. -/
def itemPortW : PortItemAttrs :=
  { parse_ok := true, ifindex := some 4, speed := none, duplex := none,
    linkup := true, changed := false }

/-- A freshly allocated handle: ifindex 0, empty registries, no handlers,
nothing pending (team_alloc zero-fills the structure). -/
def thFreshW : TeamState :=
  { ifindex := 0, port_list := [], option_list := [], change_handlers := [],
    pending_type_mask := 0 }

/-- An arbitrary concrete environment for the init witness. -/
def envW : NlEnv :=
  { genl_connect_sock := 0, genl_connect_event_sock := 0, resolve_family := 1,
    resolve_grp := 2, add_membership := 0, port_fetch := .ok [],
    options_fetch := .ok [] }

/-- An environment whose two fetches fail mid-stream with transport errors. -/
def envErrW : NlEnv :=
  ⟨0, 0, 1, 2, 0, .error (-5), .error (-7)⟩

/-- A context with two registered handlers, identities 1 and 2. -/
def thRegW : TeamState :=
  ⟨7, [], [], [⟨1, TEAM_PORT_CHANGE⟩, ⟨2, TEAM_OPTION_CHANGE⟩], 0⟩

/-- The spec's coalescing scenario: two handlers interested in {PORT} and
{OPTION} respectively, both categories pending. -/
def thDispatchW : TeamState :=
  ⟨7, [], [], [⟨1, TEAM_PORT_CHANGE⟩, ⟨2, TEAM_OPTION_CHANGE⟩],
   TEAM_PORT_CHANGE ||| TEAM_OPTION_CHANGE⟩

/-- A concrete option batch with a duplicated name "m". -/
def optItemsW : List OptionItemAttrs :=
  [⟨true, some ['m'], some NLA_U32, some (1, []), false⟩,
   ⟨true, some ['m'], some NLA_U32, some (2, []), true⟩,
   ⟨true, some ['x'], some NLA_STRING, some (0, ['a']), false⟩]

/-- The registry the batch decodes to: one entry per name, first "m" kept. -/
def optsW : List team_option :=
  [⟨TEAM_OPTION_TYPE_U32, ['m'], .u32 1, false⟩,
   ⟨TEAM_OPTION_TYPE_STRING, ['x'], .str ['a'], false⟩]

/-- A fresh context bound to device index 7, used by the C1 material. -/
def thC1 : TeamState := ⟨7, [], [], [], 0⟩

/-- A port item whose mandatory ifindex attribute is missing. -/
def badPortItem : PortItemAttrs := ⟨true, none, none, none, false, false⟩

/-- A well-formed port item for device 5. -/
def goodPortItem : PortItemAttrs := ⟨true, some 5, none, none, true, false⟩

/-- An option item whose mandatory name attribute is missing. -/
def badOptItem : OptionItemAttrs := ⟨true, none, some NLA_U32, some (1, []), false⟩

/-- The malformed port message for the C1 witness. -/
def pmsgBadW : PortListMsg := ⟨some 7, some [badPortItem, goodPortItem]⟩

/-- The malformed option message for the C1 witness. -/
def omsgBadW : OptionListMsg := ⟨some 7, some [badOptItem]⟩

/-- Modelled from the claim C7's words, for comparison with the code: the
integer arm applies only when the whole text is an integer possibly
followed by whitespace (nothing after it); the token arm requires the text
to be exactly "err", "info" or "debug"; everything else yields 0. -/
def log_priority_claimed (s : List Char) : Int :=
  let signed := strtolSign (s.dropWhile (fun c => c_isspace c))
  let ds := signed.2.takeWhile Char.isDigit
  let rest := signed.2.dropWhile Char.isDigit
  if ds ≠ [] ∧ rest.all (fun c => c_isspace c) then
    (if signed.1 then -(digitsVal ds : Int) else (digitsVal ds : Int))
  else if s = ['e', 'r', 'r'] then LOG_ERR
  else if s = ['i', 'n', 'f', 'o'] then LOG_INFO
  else if s = ['d', 'e', 'b', 'u', 'g'] then LOG_DEBUG
  else 0

/-- The amended reading of the override parsing: the integer arm accepts
whenever the character the parse stops at is the end of the string or any
whitespace character — junk after that whitespace is ignored, and when no
digit is consumed the stop test is applied to the whole text (value 0);
the token arm matches "err"/"info"/"debug" as prefixes of the text, not
exactly; anything else yields 0. -/
def log_priority_amended (s : List Char) : Int :=
  let signed := strtolSign (s.dropWhile (fun c => c_isspace c))
  let ds := signed.2.takeWhile Char.isDigit
  let rest := signed.2.dropWhile Char.isDigit
  if ds = [] then
    if stopAccepted s then 0
    else if strncmpEq s ['e', 'r', 'r'] then LOG_ERR
    else if strncmpEq s ['i', 'n', 'f', 'o'] then LOG_INFO
    else if strncmpEq s ['d', 'e', 'b', 'u', 'g'] then LOG_DEBUG
    else 0
  else
    if stopAccepted rest then
      (if signed.1 then -(digitsVal ds : Int) else (digitsVal ds : Int))
    else if strncmpEq s ['e', 'r', 'r'] then LOG_ERR
    else if strncmpEq s ['i', 'n', 'f', 'o'] then LOG_INFO
    else if strncmpEq s ['d', 'e', 'b', 'u', 'g'] then LOG_DEBUG
    else 0

/-- C5: the transport error translation is total (a Lean function on all of
`Int`) and pure; each of the sixteen defined transport error identifiers
(passed as the negative error the transport reports) maps to its corresponding
POSIX errno, zero maps to zero, and every other code maps to `EINVAL`. -/
theorem nl2syserr_total_mapping :
    nl2syserr 0 = 0 ∧
    nl2syserr (-(NLE_EXIST : Int)) = EEXIST ∧
    nl2syserr (-(NLE_NOADDR : Int)) = EADDRNOTAVAIL ∧
    nl2syserr (-(NLE_OBJ_NOTFOUND : Int)) = ENOENT ∧
    nl2syserr (-(NLE_INTR : Int)) = EINTR ∧
    nl2syserr (-(NLE_AGAIN : Int)) = EAGAIN ∧
    nl2syserr (-(NLE_BAD_SOCK : Int)) = ENOTSOCK ∧
    nl2syserr (-(NLE_NOACCESS : Int)) = EACCES ∧
    nl2syserr (-(NLE_INVAL : Int)) = EINVAL ∧
    nl2syserr (-(NLE_NOMEM : Int)) = ENOMEM ∧
    nl2syserr (-(NLE_AF_NOSUPPORT : Int)) = EAFNOSUPPORT ∧
    nl2syserr (-(NLE_PROTO_MISMATCH : Int)) = EPROTONOSUPPORT ∧
    nl2syserr (-(NLE_OPNOTSUPP : Int)) = EOPNOTSUPP ∧
    nl2syserr (-(NLE_PERM : Int)) = EPERM ∧
    nl2syserr (-(NLE_BUSY : Int)) = EBUSY ∧
    nl2syserr (-(NLE_RANGE : Int)) = ERANGE ∧
    nl2syserr (-(NLE_NODEV : Int)) = ENODEV ∧
    ∀ n : Int, n ≠ 0 → n.natAbs ∉ nle_defined_codes → nl2syserr n = EINVAL := by
  have tail : ∀ n : Int, n ≠ 0 → n.natAbs ∉ nle_defined_codes →
      nl2syserr n = EINVAL := by
    intro n hn hmem
    have h0 : n.natAbs ≠ 0 := by
      simpa [Int.natAbs_eq_zero] using hn
    simp only [nle_defined_codes, List.mem_cons, List.not_mem_nil,
      not_or] at hmem
    obtain ⟨h1, h2, h3, h4, h5, h6, h7, h8, h9, h10, h11, h12, h13, h14, h15,
      h16, -⟩ := hmem
    simp only [nl2syserr, h0, h1, h2, h3, h4, h5, h6, h7, h8, h9, h10, h11,
      h12, h13, h14, h15, h16, if_false]
  repeat' apply And.intro
  all_goals first
  | exact tail
  | decide

/-- Witness for C5: the unrecognized code branch at the concrete input -12345. -/
theorem nl2syserr_total_mapping_witness : nl2syserr (-12345) = EINVAL := by
  have h := nl2syserr_total_mapping
  repeat replace h := h.2
  exact h (-12345) (by decide) (by decide)

/-! ## Theorems -/

/-- C3: an inbound port-list or option-list message whose top-level device
ifindex attribute differs from the context's bound interface index, or is
absent (the local `team_ifindex` then keeps its initialization value 0,
which cannot equal the bound index of an initialized context), is ignored:
the handler returns the state unchanged, so both registries and the pending
change mask are untouched, and no error is raised (every path of both C
handlers returns `NL_SKIP`). -/
theorem device_filtering (th : TeamState) (pmsg : PortListMsg)
    (omsg : OptionListMsg) (hbound : th.ifindex ≠ 0)
    (hp : ∀ v, pmsg.team_ifindex = some v → v ≠ th.ifindex)
    (ho : ∀ v, omsg.team_ifindex = some v → v ≠ th.ifindex) :
    get_port_list_handler pmsg th = th ∧ get_options_handler omsg th = th := by
  constructor
  · unfold get_port_list_handler
    cases hmsg : pmsg.team_ifindex with
    | none => simp [hmsg, Ne.symm hbound]
    | some v => simp [hmsg, hp v hmsg]
  · unfold get_options_handler
    cases hmsg : omsg.team_ifindex with
    | none => simp [hmsg, Ne.symm hbound]
    | some v => simp [hmsg, ho v hmsg]

/-- Witness for C3: a mismatching port-list message and an
absent-device-index option-list message against a context bound to index 7. -/
theorem device_filtering_witness :
    thFilterW.ifindex ≠ 0 ∧
    (get_port_list_handler pmsgFilterW thFilterW = thFilterW ∧
      get_options_handler omsgFilterW thFilterW = thFilterW) :=
  ⟨by decide,
   device_filtering thFilterW pmsgFilterW omsgFilterW (by decide)
     (by intro v hv; cases hv; decide) (by intro v hv; cases hv)⟩

/-- C9: in a decoded port item the mandatory ifindex attribute becomes the
port's interface index; an absent speed attribute yields speed 0 and an
absent duplex attribute yields duplex 0 (half), present ones yield their
value; linkup and changed are exactly the presence of the corresponding
flag attributes. -/
theorem port_item_decoding (it : PortItemAttrs) (rest : List PortItemAttrs)
    (ports : List team_port) (idx : Nat) (hok : it.parse_ok = true)
    (hif : it.ifindex = some idx)
    (hrest : decodePortItems rest = some ports) :
    ∃ p, decodePortItems (it :: rest) = some (p :: ports) ∧
      p.ifindex = idx ∧
      (it.speed = none → p.speed = 0) ∧
      (∀ v, it.speed = some v → p.speed = v) ∧
      (it.duplex = none → p.duplex = 0) ∧
      (∀ v, it.duplex = some v → p.duplex = v) ∧
      p.linkup = it.linkup ∧ p.changed = it.changed := by
  refine ⟨{ ifindex := idx, speed := it.speed.getD 0, duplex := it.duplex.getD 0,
            linkup := it.linkup, changed := it.changed }, ?_, rfl, ?_, ?_, ?_,
            ?_, rfl, rfl⟩
  · simp [decodePortItems, hok, hif, hrest]
  · intro h; simp [h]
  · intro v h; simp [h]
  · intro h; simp [h]
  · intro v h; simp [h]

/-- Witness for C9: decoding the concrete item yields ifindex 4, defaulted
speed and duplex, and the flag values. -/
theorem port_item_decoding_witness :
    itemPortW.parse_ok = true ∧ itemPortW.ifindex = some 4 ∧
    decodePortItems [] = some [] ∧
    ∃ p, decodePortItems [itemPortW] = some (p :: []) ∧
      p.ifindex = 4 ∧
      (itemPortW.speed = none → p.speed = 0) ∧
      (∀ v, itemPortW.speed = some v → p.speed = v) ∧
      (itemPortW.duplex = none → p.duplex = 0) ∧
      (∀ v, itemPortW.duplex = some v → p.duplex = v) ∧
      p.linkup = itemPortW.linkup ∧ p.changed = itemPortW.changed :=
  ⟨rfl, rfl, rfl, port_item_decoding itemPortW [] [] 4 rfl rfl rfl⟩

/-- C10: `team_init` called with interface index 0 fails with `-ENOENT`
before any of the connect/resolve/fetch actions is attempted (empty action
trace) and returns the handle unchanged, so its device ifindex stays 0;
`team_destroy` on such an uninitialized handle fails with `-ENODEV`. -/
theorem init_zero_ifindex (th : TeamState) (env : NlEnv)
    (link_delete_result : Int) (h : th.ifindex = 0) :
    team_init th 0 env = (-ENOENT, th, []) ∧
    team_destroy th link_delete_result = -ENODEV := by
  constructor
  · simp [team_init]
  · simp [team_destroy, h]

/-- Witness for C10: the fresh handle at ifindex 0. -/
theorem init_zero_ifindex_witness :
    thFreshW.ifindex = 0 ∧
    (team_init thFreshW 0 envW = (-ENOENT, thFreshW, []) ∧
      team_destroy thFreshW 0 = -ENODEV) :=
  ⟨rfl, init_zero_ifindex thFreshW envW 0 rfl⟩

/-- C8: a refresh can only replace the registry wholesale. Each decode
handler either returns the state exactly as it was (mismatched device,
missing list attribute, or an abort partway through the item batch) or
installs a completely decoded snapshot; and a transport failure of the
fetch round trip surfaces the error with the state untouched. No partially
built collection is ever observable. -/
theorem atomic_replace (th : TeamState) (env : NlEnv) (pmsg : PortListMsg)
    (omsg : OptionListMsg) :
    (get_port_list_handler pmsg th = th ∨
      ∃ items ports, pmsg.port_list = some items ∧
        decodePortItems items = some ports ∧
        get_port_list_handler pmsg th =
          { th with port_list := ports,
                    pending_type_mask :=
                      th.pending_type_mask ||| TEAM_PORT_CHANGE }) ∧
    (get_options_handler omsg th = th ∨
      ∃ items options, omsg.option_list = some items ∧
        decodeOptionItems items [] = some options ∧
        get_options_handler omsg th =
          { th with option_list := options,
                    pending_type_mask :=
                      th.pending_type_mask ||| TEAM_OPTION_CHANGE }) ∧
    (∀ e, env.port_fetch = Except.error e →
      get_port_list th env = (e, th, [])) ∧
    (∀ e, env.options_fetch = Except.error e →
      get_options th env = (e, th, [])) := by
  refine ⟨?_, ?_, ?_, ?_⟩
  · by_cases hif : pmsg.team_ifindex.getD 0 ≠ th.ifindex
    · left
      simp only [get_port_list_handler, if_pos hif]
    · cases hpl : pmsg.port_list with
      | none =>
        left
        simp only [get_port_list_handler, if_neg hif, hpl]
      | some items =>
        cases hdec : decodePortItems items with
        | none =>
          left
          simp only [get_port_list_handler, if_neg hif, hpl, hdec]
        | some ports =>
          right
          refine ⟨items, ports, rfl, hdec, ?_⟩
          simp only [get_port_list_handler, if_neg hif, hpl, hdec]
          rfl
  · by_cases hif : omsg.team_ifindex.getD 0 ≠ th.ifindex
    · left
      simp only [get_options_handler, if_pos hif]
    · cases hol : omsg.option_list with
      | none =>
        left
        simp only [get_options_handler, if_neg hif, hol]
      | some items =>
        cases hdec : decodeOptionItems items [] with
        | none =>
          left
          simp only [get_options_handler, if_neg hif, hol, hdec]
        | some options =>
          right
          refine ⟨items, options, rfl, hdec, ?_⟩
          simp only [get_options_handler, if_neg hif, hol, hdec]
          rfl
  · intro e he
    simp only [get_port_list, he]
  · intro e he
    simp only [get_options, he]

/-- Witness for C8: the interrupted port fetch leaves the concrete state
untouched and surfaces the error. -/
theorem atomic_replace_witness :
    envErrW.port_fetch = Except.error (-5) ∧
    get_port_list thFilterW envErrW = (-5, thFilterW, []) :=
  ⟨rfl,
   (atomic_replace thFilterW envErrW pmsgFilterW omsgFilterW).2.2.1 (-5) rfl⟩

/-- Helper: under pairwise-distinct handler identities, erasing the first
record with a given identity is the same as filtering that identity out. -/
theorem eraseP_id_eq_filter (l : List team_change_handler) (x : Nat)
    (hdup : l.Pairwise (fun a b => a.id ≠ b.id)) :
    l.eraseP (fun item => item.id = x) =
      l.filter (fun item => item.id ≠ x) := by
  induction l with
  | nil => rfl
  | cons a rest ih =>
    rcases List.pairwise_cons.mp hdup with ⟨ha, hrest⟩
    by_cases hax : a.id = x
    · rw [List.eraseP_cons_of_pos (by simp [hax]),
        List.filter_cons_of_neg (by simp [hax])]
      symm
      refine List.filter_eq_self.mpr ?_
      intro b hb
      have : a.id ≠ b.id := ha b hb
      simp only [ne_eq, decide_not, Bool.not_eq_eq_eq_not, Bool.not_true,
        decide_eq_false_iff_not]
      intro hbx
      exact this (by rw [hax, hbx])
    · rw [List.eraseP_cons_of_neg (by simp [hax]),
        List.filter_cons_of_pos (by simp [hax]), ih hrest]

/-- C6: registering a handler whose identity is already present fails with
`-EEXIST` and leaves the collection unchanged; a successful registration
appends exactly one record; unregistering an absent handler is a no-op; and
unregistering a present handler (identities being pairwise distinct, the
invariant registration maintains) removes exactly that handler's record. -/
theorem change_handler_registration (th : TeamState)
    (handler : team_change_handler) :
    ((∃ item ∈ th.change_handlers, item.id = handler.id) →
      team_change_handler_register th handler = (th, -EEXIST)) ∧
    ((∀ item ∈ th.change_handlers, item.id ≠ handler.id) →
      team_change_handler_register th handler =
        ({ th with change_handlers := th.change_handlers ++ [handler] }, 0)) ∧
    ((∀ item ∈ th.change_handlers, item.id ≠ handler.id) →
      team_change_handler_unregister th handler = th) ∧
    (th.change_handlers.Pairwise (fun a b => a.id ≠ b.id) →
      (team_change_handler_unregister th handler).change_handlers =
        th.change_handlers.filter (fun item => item.id ≠ handler.id)) := by
  refine ⟨?_, ?_, ?_, ?_⟩
  · rintro ⟨item, hmem, hid⟩
    have hfound : (find_change_handler th handler).isSome := by
      unfold find_change_handler
      exact List.find?_isSome.mpr ⟨item, hmem, by simp [hid]⟩
    simp only [team_change_handler_register, hfound, if_true]
  · intro habs
    have hnone : find_change_handler th handler = none := by
      unfold find_change_handler
      exact List.find?_eq_none.mpr (fun item hmem => by simp [habs item hmem])
    simp only [team_change_handler_register, hnone, Option.isSome_none,
      Bool.false_eq_true, if_false]
  · intro habs
    have : th.change_handlers.eraseP (fun item => item.id = handler.id) =
        th.change_handlers :=
      List.eraseP_of_forall_not (fun item hmem => by simp [habs item hmem])
    simp only [team_change_handler_unregister, this]
  · intro hdup
    simpa only [team_change_handler_unregister] using
      eraseP_id_eq_filter th.change_handlers handler.id hdup

/-- Witness for C6: re-registering identity 1 on the concrete context fails
with `-EEXIST` and leaves it unchanged. -/
theorem change_handler_registration_witness :
    (∃ item ∈ thRegW.change_handlers, item.id = 1) ∧
    team_change_handler_register thRegW ⟨1, TEAM_ANY_CHANGE⟩ =
      (thRegW, -EEXIST) :=
  ⟨⟨⟨1, TEAM_PORT_CHANGE⟩, by decide, rfl⟩,
   (change_handler_registration thRegW ⟨1, TEAM_ANY_CHANGE⟩).1
     ⟨⟨1, TEAM_PORT_CHANGE⟩, by decide, rfl⟩⟩

/-- Helper: no invocation in the dispatch trace carries an identity absent
from the handler list. -/
theorem run_change_handlers_filter_of_absent
    (handlers : List team_change_handler) (m x : Nat)
    (habs : ∀ h ∈ handlers, h.id ≠ x) :
    (run_change_handlers handlers m).filter (fun c => c.1 = x) = [] := by
  induction handlers with
  | nil => rfl
  | cons a rest ih =>
    have ha : a.id ≠ x := habs a (List.mem_cons_self a rest)
    have hrest : ∀ h ∈ rest, h.id ≠ x :=
      fun h hm => habs h (List.mem_cons_of_mem a hm)
    simp only [run_change_handlers]
    by_cases hz : a.type_mask &&& m ≠ 0
    · rw [if_pos hz, List.filter_cons_of_neg (by simp [ha])]
      exact ih hrest
    · rw [if_neg hz]
      exact ih hrest

/-- Helper: under pairwise-distinct identities, a handler whose interest
intersects the settled mask appears in the dispatch trace exactly once,
carrying exactly the intersection; a handler with empty intersection does
not appear at all. -/
theorem run_change_handlers_filter_eq (handlers : List team_change_handler)
    (m : Nat) (h : team_change_handler)
    (hdup : handlers.Pairwise (fun a b => a.id ≠ b.id))
    (hmem : h ∈ handlers) :
    (run_change_handlers handlers m).filter (fun c => c.1 = h.id) =
      (if h.type_mask &&& m = 0 then []
       else [(h.id, h.type_mask &&& m)]) := by
  induction handlers with
  | nil => cases hmem
  | cons a rest ih =>
    rcases List.pairwise_cons.mp hdup with ⟨ha, hrest⟩
    rcases List.mem_cons.mp hmem with heq | hmem'
    · subst heq
      have habs : ∀ h' ∈ rest, h'.id ≠ h.id :=
        fun h' hm => Ne.symm (ha h' hm)
      simp only [run_change_handlers]
      by_cases hz : h.type_mask &&& m = 0
      · rw [if_neg (by simpa using hz), if_pos hz]
        exact run_change_handlers_filter_of_absent rest m h.id habs
      · rw [if_pos hz, if_neg hz,
          List.filter_cons_of_pos (by simp),
          run_change_handlers_filter_of_absent rest m h.id habs]
    · have ha' : a.id ≠ h.id := ha h hmem'
      simp only [run_change_handlers]
      by_cases hz : a.type_mask &&& m ≠ 0
      · rw [if_pos hz, List.filter_cons_of_neg (by simp [ha'])]
        exact ih hrest hmem'
      · rw [if_neg hz]
        exact ih hrest hmem'

/-- Helper: every entry of the dispatch trace comes from a registered
handler with a nonempty intersection and carries that intersection. -/
theorem mem_run_change_handlers (handlers : List team_change_handler)
    (m : Nat) (c : Nat × Nat) (hc : c ∈ run_change_handlers handlers m) :
    ∃ h ∈ handlers, c = (h.id, h.type_mask &&& m) ∧ h.type_mask &&& m ≠ 0 := by
  induction handlers with
  | nil => cases hc
  | cons a rest ih =>
    simp only [run_change_handlers] at hc
    by_cases hz : a.type_mask &&& m ≠ 0
    · rw [if_pos hz] at hc
      rcases List.mem_cons.mp hc with heq | hc'
      · exact ⟨a, List.mem_cons_self a rest, heq, hz⟩
      · obtain ⟨h, hm, he⟩ := ih hc'
        exact ⟨h, List.mem_cons_of_mem a hm, he⟩
    · rw [if_neg hz] at hc
      obtain ⟨h, hm, he⟩ := ih hc
      exact ⟨h, List.mem_cons_of_mem a hm, he⟩

/-- Helper: the dispatch trace respects registration order (its identities
form a sublist of the registered identities). -/
theorem run_change_handlers_ids_sublist (handlers : List team_change_handler)
    (m : Nat) :
    ((run_change_handlers handlers m).map Prod.fst).Sublist
      (handlers.map team_change_handler.id) := by
  induction handlers with
  | nil => simp [run_change_handlers]
  | cons a rest ih =>
    simp only [run_change_handlers, List.map_cons]
    by_cases hz : a.type_mask &&& m ≠ 0
    · rw [if_pos hz]
      simpa using List.Sublist.cons₂ a.id ih
    · rw [if_neg hz]
      exact List.Sublist.cons a.id ih

/-- Helper: bitwise reading of the pending mask update
`pending &= ~call_type_mask`. -/
theorem maskClear_testBit (P M i : Nat) :
    (maskClear P M).testBit i = (P.testBit i && !(M.testBit i)) := by
  unfold maskClear
  rw [Nat.testBit_xor, Nat.testBit_and]
  cases P.testBit i <;> cases M.testBit i <;> rfl

/-- C4: dispatching with settle mask M over pending mask P invokes, in
registration order, exactly those handlers whose interest mask intersects
P AND M, exactly once each, passing exactly the intersection of their
interest mask with P AND M; no spurious invocation occurs; afterwards
exactly the bits of M are cleared from the pending mask (bits outside M
stay pending) and everything else in the context is untouched. -/
theorem dispatch_settle (th : TeamState) (call_type_mask : Nat)
    (hdup : th.change_handlers.Pairwise (fun a b => a.id ≠ b.id)) :
    (∀ h ∈ th.change_handlers,
      (check_call_change_handlers th call_type_mask).2.filter
          (fun c => c.1 = h.id) =
        (if h.type_mask &&& (th.pending_type_mask &&& call_type_mask) = 0
         then []
         else [(h.id,
           h.type_mask &&& (th.pending_type_mask &&& call_type_mask))])) ∧
    (((check_call_change_handlers th call_type_mask).2.map Prod.fst).Sublist
      (th.change_handlers.map team_change_handler.id)) ∧
    (∀ c ∈ (check_call_change_handlers th call_type_mask).2,
      ∃ h ∈ th.change_handlers,
        c = (h.id,
          h.type_mask &&& (th.pending_type_mask &&& call_type_mask)) ∧
        h.type_mask &&& (th.pending_type_mask &&& call_type_mask) ≠ 0) ∧
    (∀ i,
      ((check_call_change_handlers th call_type_mask).1.pending_type_mask
        ).testBit i =
        (th.pending_type_mask.testBit i && !(call_type_mask.testBit i))) ∧
    (check_call_change_handlers th call_type_mask).1.ifindex = th.ifindex ∧
    (check_call_change_handlers th call_type_mask).1.port_list =
      th.port_list ∧
    (check_call_change_handlers th call_type_mask).1.option_list =
      th.option_list ∧
    (check_call_change_handlers th call_type_mask).1.change_handlers =
      th.change_handlers := by
  simp only [check_call_change_handlers]
  refine ⟨?_, ?_, ?_, ?_, trivial, trivial, trivial, trivial⟩
  · intro h hmem
    exact run_change_handlers_filter_eq th.change_handlers
      (th.pending_type_mask &&& call_type_mask) h hdup hmem
  · exact run_change_handlers_ids_sublist th.change_handlers
      (th.pending_type_mask &&& call_type_mask)
  · intro c hc
    exact mem_run_change_handlers th.change_handlers
      (th.pending_type_mask &&& call_type_mask) c hc
  · intro i
    exact maskClear_testBit th.pending_type_mask call_type_mask i

/-- Witness for C4: dispatching both categories on the concrete two-handler
context. -/
theorem dispatch_settle_witness :
    thDispatchW.change_handlers.Pairwise (fun a b => a.id ≠ b.id) ∧
    ((∀ h ∈ thDispatchW.change_handlers,
      (check_call_change_handlers thDispatchW TEAM_ANY_CHANGE).2.filter
          (fun c => c.1 = h.id) =
        (if h.type_mask &&&
            (thDispatchW.pending_type_mask &&& TEAM_ANY_CHANGE) = 0
         then []
         else [(h.id, h.type_mask &&&
           (thDispatchW.pending_type_mask &&& TEAM_ANY_CHANGE))])) ∧
    (((check_call_change_handlers thDispatchW TEAM_ANY_CHANGE).2.map
        Prod.fst).Sublist
      (thDispatchW.change_handlers.map team_change_handler.id)) ∧
    (∀ c ∈ (check_call_change_handlers thDispatchW TEAM_ANY_CHANGE).2,
      ∃ h ∈ thDispatchW.change_handlers,
        c = (h.id, h.type_mask &&&
          (thDispatchW.pending_type_mask &&& TEAM_ANY_CHANGE)) ∧
        h.type_mask &&&
          (thDispatchW.pending_type_mask &&& TEAM_ANY_CHANGE) ≠ 0) ∧
    (∀ i,
      ((check_call_change_handlers thDispatchW TEAM_ANY_CHANGE
        ).1.pending_type_mask).testBit i =
        (thDispatchW.pending_type_mask.testBit i &&
          !(TEAM_ANY_CHANGE.testBit i))) ∧
    (check_call_change_handlers thDispatchW TEAM_ANY_CHANGE).1.ifindex =
      thDispatchW.ifindex ∧
    (check_call_change_handlers thDispatchW TEAM_ANY_CHANGE).1.port_list =
      thDispatchW.port_list ∧
    (check_call_change_handlers thDispatchW TEAM_ANY_CHANGE).1.option_list =
      thDispatchW.option_list ∧
    (check_call_change_handlers thDispatchW TEAM_ANY_CHANGE
      ).1.change_handlers = thDispatchW.change_handlers) :=
  ⟨by decide, dispatch_settle thDispatchW TEAM_ANY_CHANGE (by decide)⟩

/-- Helper: the registry entry a completed option decode keeps for each
name is the first successfully decoded item of that name not already
shadowed by the accumulator. -/
theorem decodeOptionItems_find? (items : List OptionItemAttrs)
    (acc opts : List team_option) (n : List Char)
    (h : decodeOptionItems items acc = some opts) :
    opts.find? (fun o => o.name = n) =
      (acc.find? (fun o => o.name = n)).or
        ((items.filterMap decode_option_item).find? (fun o => o.name = n)) := by
  induction items generalizing acc with
  | nil =>
    simp only [decodeOptionItems, Option.some.injEq] at h
    subst h
    simp [Option.or_none]
  | cons it rest ih =>
    simp only [decodeOptionItems] at h
    by_cases hpk : it.parse_ok = false
    · rw [if_pos hpk] at h
      cases h
    · rw [if_neg hpk] at h
      have hpk' : it.parse_ok = true := by
        cases hv : it.parse_ok
        · exact absurd hv hpk
        · rfl
      cases hname : it.name with
      | none => rw [hname] at h; cases h
      | some name =>
        cases hnt : it.nla_type with
        | none => rw [hname, hnt] at h; cases h
        | some nla_type =>
          cases hdata : it.data with
          | none => rw [hname, hnt, hdata] at h; cases h
          | some data =>
            rw [hname, hnt, hdata] at h
            simp only [] at h
            have hitem : decode_option_item it =
                (if nla_type = NLA_U32 then
                  some (create_option name TEAM_OPTION_TYPE_U32
                    (.u32 data.1) it.changed)
                else if nla_type = NLA_STRING then
                  some (create_option name TEAM_OPTION_TYPE_STRING
                    (.str data.2) it.changed)
                else none) := by
              simp [decode_option_item, hpk', hname, hnt, hdata]
            by_cases hdup : (__find_option acc name).isSome
            · rw [if_pos hdup] at h
              have ihh := ih acc h
              by_cases hu : nla_type = NLA_U32
              · rw [if_pos hu] at hitem
                simp only [List.filterMap_cons, hitem]
                by_cases hn : name = n
                · have hsome : (acc.find? (fun o => o.name = n)).isSome := by
                    subst hn
                    exact hdup
                  rw [ihh, Option.or_of_isSome hsome,
                    Option.or_of_isSome hsome]
                · rw [ihh]
                  simp [create_option, hn]
              · rw [if_neg hu] at hitem
                by_cases hs : nla_type = NLA_STRING
                · rw [if_pos hs] at hitem
                  simp only [List.filterMap_cons, hitem]
                  by_cases hn : name = n
                  · have hsome : (acc.find? (fun o => o.name = n)).isSome := by
                      subst hn
                      exact hdup
                    rw [ihh, Option.or_of_isSome hsome,
                      Option.or_of_isSome hsome]
                  · rw [ihh]
                    simp [create_option, hn]
                · rw [if_neg hs] at hitem
                  simp only [List.filterMap_cons, hitem]
                  exact ihh
            · rw [if_neg hdup] at h
              by_cases hu : nla_type = NLA_U32
              · rw [if_pos hu] at h hitem
                have ihh := ih
                  (acc ++ [create_option name TEAM_OPTION_TYPE_U32
                    (.u32 data.1) it.changed]) h
                simp only [List.filterMap_cons, hitem]
                rw [ihh, List.find?_append, Option.or_assoc]
                by_cases hn : name = n
                · subst hn
                  simp [create_option]
                · simp [create_option, hn]
              · rw [if_neg hu] at h hitem
                by_cases hs : nla_type = NLA_STRING
                · rw [if_pos hs] at h hitem
                  have ihh := ih
                    (acc ++ [create_option name TEAM_OPTION_TYPE_STRING
                      (.str data.2) it.changed]) h
                  simp only [List.filterMap_cons, hitem]
                  rw [ihh, List.find?_append, Option.or_assoc]
                  by_cases hn : name = n
                  · subst hn
                    simp [create_option]
                  · simp [create_option, hn]
                · rw [if_neg hs] at h hitem
                  simp only [List.filterMap_cons, hitem]
                  exact ih acc h

/-- Helper: a completed option decode starting from a duplicate-free
accumulator yields a duplicate-free registry. -/
theorem decodeOptionItems_pairwise (items : List OptionItemAttrs)
    (acc opts : List team_option)
    (hacc : acc.Pairwise (fun a b => a.name ≠ b.name))
    (h : decodeOptionItems items acc = some opts) :
    opts.Pairwise (fun a b => a.name ≠ b.name) := by
  induction items generalizing acc with
  | nil =>
    simp only [decodeOptionItems, Option.some.injEq] at h
    subst h
    exact hacc
  | cons it rest ih =>
    simp only [decodeOptionItems] at h
    by_cases hpk : it.parse_ok = false
    · rw [if_pos hpk] at h
      cases h
    · rw [if_neg hpk] at h
      cases hname : it.name with
      | none => rw [hname] at h; cases h
      | some name =>
        cases hnt : it.nla_type with
        | none => rw [hname, hnt] at h; cases h
        | some nla_type =>
          cases hdata : it.data with
          | none => rw [hname, hnt, hdata] at h; cases h
          | some data =>
            rw [hname, hnt, hdata] at h
            simp only [] at h
            by_cases hdup : (__find_option acc name).isSome
            · rw [if_pos hdup] at h
              exact ih acc hacc h
            · rw [if_neg hdup] at h
              have hfresh : ∀ a ∈ acc, a.name ≠ name := by
                intro a ha
                have hnone : __find_option acc name = none := by
                  cases hv : __find_option acc name
                  · rfl
                  · rw [hv] at hdup
                    exact absurd rfl hdup
                have := List.find?_eq_none.mp hnone a ha
                simpa using this
              by_cases hu : nla_type = NLA_U32
              · rw [if_pos hu] at h
                refine ih _ ?_ h
                rw [List.pairwise_append]
                exact ⟨hacc, List.pairwise_singleton _ _,
                  fun a ha b hb => by
                    rw [List.mem_singleton.mp hb]
                    exact hfresh a ha⟩
              · rw [if_neg hu] at h
                by_cases hs : nla_type = NLA_STRING
                · rw [if_pos hs] at h
                  refine ih _ ?_ h
                  rw [List.pairwise_append]
                  exact ⟨hacc, List.pairwise_singleton _ _,
                    fun a ha b hb => by
                      rw [List.mem_singleton.mp hb]
                      exact hfresh a ha⟩
                · rw [if_neg hs] at h
                  exact ih acc hacc h

/-- C2: a completed option-list decode never keeps two entries with the
same name (exactly one live option per distinct name), and the entry kept
for each name is exactly the first successfully decoded item of that name
in the batch: later duplicates are dropped, not merged or overwritten. -/
theorem option_uniqueness (items : List OptionItemAttrs)
    (opts : List team_option)
    (h : decodeOptionItems items [] = some opts) :
    opts.Pairwise (fun a b => a.name ≠ b.name) ∧
    ∀ n, opts.find? (fun o => o.name = n) =
      (items.filterMap decode_option_item).find? (fun o => o.name = n) := by
  refine ⟨decodeOptionItems_pairwise items [] opts (List.Pairwise.nil) h, ?_⟩
  intro n
  have := decodeOptionItems_find? items [] opts n h
  simpa using this

/-- Witness for C2: the duplicate batch keeps only the first "m" item. -/
theorem option_uniqueness_witness :
    decodeOptionItems optItemsW [] = some optsW ∧
    (optsW.Pairwise (fun a b => a.name ≠ b.name) ∧
     ∀ n, optsW.find? (fun o => o.name = n) =
       (optItemsW.filterMap decode_option_item).find? (fun o => o.name = n)) :=
  ⟨by decide, option_uniqueness optItemsW optsW (by decide)⟩

/-- Helper: a port batch containing an item with a failed nested parse or a
missing mandatory ifindex attribute makes the whole decode abort. -/
theorem decodePortItems_abort (items : List PortItemAttrs)
    (hbad : ∃ it ∈ items, it.parse_ok = false ∨ it.ifindex = none) :
    decodePortItems items = none := by
  induction items with
  | nil =>
    rcases hbad with ⟨it, hm, -⟩
    cases hm
  | cons a rest ih =>
    rcases hbad with ⟨it, hm, hb⟩
    rcases List.mem_cons.mp hm with heq | hm'
    · subst heq
      simp only [decodePortItems]
      by_cases hpa : it.parse_ok = false
      · rw [if_pos hpa]
      · rw [if_neg hpa]
        rcases hb with hb | hb
        · exact absurd hb hpa
        · rw [hb]
    · have hrest := ih ⟨it, hm', hb⟩
      simp only [decodePortItems, hrest]
      by_cases hpa : a.parse_ok = false
      · rw [if_pos hpa]
      · rw [if_neg hpa]
        cases a.ifindex <;> rfl

/-- Helper: an option batch containing an item with a failed nested parse
or a missing mandatory name/type/data attribute makes the whole decode
abort, whatever has been accumulated so far. -/
theorem decodeOptionItems_abort (items : List OptionItemAttrs)
    (hbad : ∃ it ∈ items, it.parse_ok = false ∨ it.name = none ∨
      it.nla_type = none ∨ it.data = none) :
    ∀ acc, decodeOptionItems items acc = none := by
  induction items with
  | nil =>
    rcases hbad with ⟨it, hm, -⟩
    cases hm
  | cons a rest ih =>
    intro acc
    rcases hbad with ⟨it, hm, hb⟩
    rcases List.mem_cons.mp hm with heq | hm'
    · subst heq
      simp only [decodeOptionItems]
      by_cases hpa : it.parse_ok = false
      · rw [if_pos hpa]
      · rw [if_neg hpa]
        rcases hb with hb | hb | hb | hb
        · exact absurd hb hpa
        · rw [hb]
        · rw [hb]
          cases it.name <;> cases it.data <;> rfl
        · rw [hb]
          cases it.name <;> cases it.nla_type <;> rfl
    · have hrest := ih ⟨it, hm', hb⟩
      simp only [decodeOptionItems]
      by_cases hpa : a.parse_ok = false
      · rw [if_pos hpa]
      · rw [if_neg hpa]
        cases hn : a.name with
        | none => cases a.nla_type <;> cases a.data <;> rfl
        | some nm =>
          cases ht : a.nla_type with
          | none => cases a.data <;> rfl
          | some t =>
            cases hd : a.data with
            | none => rfl
            | some d =>
              simp only []
              by_cases hdup : (__find_option acc nm).isSome
              · rw [if_pos hdup]
                exact hrest acc
              · rw [if_neg hdup]
                by_cases hu : t = NLA_U32
                · rw [if_pos hu]
                  exact hrest _
                · rw [if_neg hu]
                  by_cases hs : t = NLA_STRING
                  · rw [if_pos hs]
                    exact hrest _
                  · rw [if_neg hs]
                    exact hrest acc

/-- Counterexample for C1 as stated: in a two-item port batch whose first
item lacks the mandatory ifindex, the claim predicts that only that item is
skipped and the valid second item still lands in the registry; instead the
whole message is dropped — the registry stays empty and even the pending
mask is untouched — while the same valid item alone does decode. -/
theorem port_item_skip_counterexample :
    get_port_list_handler ⟨some 7, some [badPortItem, goodPortItem]⟩ thC1 =
      thC1 ∧
    (get_port_list_handler ⟨some 7, some [badPortItem, goodPortItem]⟩
      thC1).port_list = [] ∧
    (get_port_list_handler ⟨some 7, some [goodPortItem]⟩ thC1).port_list =
      [⟨5, 0, 0, true, false⟩] :=
  ⟨by decide, by decide, by decide⟩

/-- C1 (amended): an item missing a mandatory attribute (ifindex for a port
item; name, type, or data for an option item), or failing the nested parse,
aborts decoding of the entire message rather than being skipped
individually: the remaining items are discarded and the registry and
pending mask are left exactly as they were (no error is raised — the
handler still returns `NL_SKIP`). Only duplicate-name and unknown-type
option items are individually skipped. -/
theorem malformed_item_aborts (th : TeamState) (pmsg : PortListMsg)
    (omsg : OptionListMsg) (pitems : List PortItemAttrs)
    (oitems : List OptionItemAttrs)
    (hp : pmsg.port_list = some pitems)
    (hbadp : ∃ it ∈ pitems, it.parse_ok = false ∨ it.ifindex = none)
    (ho : omsg.option_list = some oitems)
    (hbado : ∃ it ∈ oitems, it.parse_ok = false ∨ it.name = none ∨
      it.nla_type = none ∨ it.data = none) :
    get_port_list_handler pmsg th = th ∧
    get_options_handler omsg th = th := by
  constructor
  · by_cases hif : pmsg.team_ifindex.getD 0 ≠ th.ifindex
    · simp only [get_port_list_handler, if_pos hif]
    · simp only [get_port_list_handler, if_neg hif, hp,
        decodePortItems_abort pitems hbadp]
  · by_cases hif : omsg.team_ifindex.getD 0 ≠ th.ifindex
    · simp only [get_options_handler, if_pos hif]
    · simp only [get_options_handler, if_neg hif, ho,
        decodeOptionItems_abort oitems hbado []]

/-- Witness for the amended C1: both malformed messages leave the concrete
context untouched. -/
theorem malformed_item_aborts_witness :
    pmsgBadW.port_list = some [badPortItem, goodPortItem] ∧
    (∃ it ∈ [badPortItem, goodPortItem],
      it.parse_ok = false ∨ it.ifindex = none) ∧
    omsgBadW.option_list = some [badOptItem] ∧
    (∃ it ∈ [badOptItem], it.parse_ok = false ∨ it.name = none ∨
      it.nla_type = none ∨ it.data = none) ∧
    (get_port_list_handler pmsgBadW thC1 = thC1 ∧
      get_options_handler omsgBadW thC1 = thC1) :=
  ⟨rfl, by decide, rfl, by decide,
   malformed_item_aborts thC1 pmsgBadW omsgBadW
     [badPortItem, goodPortItem] [badOptItem] rfl (by decide) rfl (by decide)⟩

/-- Helper: the digit run `strtol` consumes is the leading digit span; its
value is the span's base-10 value and the parse resumes after it. -/
theorem parseDigits_eq (s : List Char) (acc : Nat) :
    parseDigits s acc =
      ((s.takeWhile Char.isDigit).foldl (fun a c => a * 10 + (c.toNat - 48))
        acc,
       s.dropWhile Char.isDigit) := by
  induction s generalizing acc with
  | nil => rfl
  | cons c rest ih =>
    by_cases hc : c.isDigit
    · simp [parseDigits, hc, List.takeWhile_cons, List.dropWhile_cons, ih]
    · simp [parseDigits, hc, List.takeWhile_cons, List.dropWhile_cons]

/-- Counterexample for C7 as stated: the text "errx" is neither an integer
nor exactly a level token, so the claim predicts the lowest priority 0;
the code's `strncmp` prefix comparison accepts it as "err" and yields
`LOG_ERR`. -/
theorem log_priority_claim_counterexample :
    log_priority_claimed ['e', 'r', 'r', 'x'] = 0 ∧
    log_priority ['e', 'r', 'r', 'x'] = LOG_ERR :=
  ⟨by decide, by decide⟩

/-- C7 (amended): the override parsing accepts the strtol value whenever
the parse stops at end-of-string or at a whitespace character (text after
that whitespace is ignored; with no digits consumed the test applies to the
whole text and the value is 0); otherwise the three level tokens are
matched as prefixes; otherwise the priority is 0 — and `team_alloc` applies
exactly this parsing to the TEAM_LOG value, defaulting to `LOG_ERR` when
the variable is unset. -/
theorem log_priority_amended_correct :
    (∀ s, log_priority s = log_priority_amended s) ∧
    (∀ s, team_alloc_log_priority (some s) = log_priority_amended s) ∧
    team_alloc_log_priority none = LOG_ERR := by
  have main : ∀ s, log_priority s = log_priority_amended s := by
    intro s
    cases hsig : (strtolSign (s.dropWhile (fun c => c_isspace c))).2 with
    | nil =>
      simp only [log_priority, log_priority_amended, strtol10, hsig,
        List.takeWhile_nil, List.dropWhile_nil, if_pos rfl]
      cases s <;> simp [stopAccepted]
    | cons c cs =>
      by_cases hc : c.isDigit
      · simp only [log_priority, log_priority_amended, strtol10, hsig, hc,
          if_true, parseDigits_eq, List.takeWhile_cons, List.dropWhile_cons,
          digitsVal]
        cases hrest : cs.dropWhile Char.isDigit <;>
          simp [stopAccepted, List.foldl_cons]
      · simp only [log_priority, log_priority_amended, strtol10, hsig, hc,
          if_false, List.takeWhile_cons, List.dropWhile_cons]
        cases s <;> simp [stopAccepted, hc]
  exact ⟨main, fun s => main s, rfl⟩

end Libteam
